import Mathlib

/-!
Verification development for the aws-haproxy-config daemon (src/main.go).

The Go program polls an SQS queue; for each message it validates the body
as JSON, queries EC2 for the instances of a tagged group, filters them by
tag and lifecycle state, renders an haproxy configuration file from a
template, and invokes an external reload script.

Shallow embedding conventions:
- AWS SDK pointer fields that the program dereferences and that the spec
  singles out as possibly absent (PrivateDnsName, PrivateIpAddress) are
  modelled as Option String; a nil-pointer dereference (a Go runtime
  panic) is modelled by the function returning none. The remaining SDK
  pointer fields (InstanceId, InstanceType, State.Name, tag keys and
  values) are modelled as plain String, since no claim concerns their
  absence.
- Network and filesystem effects are oracle parameters: the EC2
  DescribeInstances response, the outcome of os.Create, the point at
  which template execution fails, and the outcome of the reload
  subprocess are all inputs to the embedded functions.
- Fallible Go code returning (value, error) is embedded as Except String;
  a Go panic is the Option layer around it.
-/

/-- One EC2 tag, a key and a value (Go: ec2.Tag with Key and Value). -/
structure Tag where
  key : String
  value : String
deriving DecidableEq, Repr

/-- One EC2 instance as consumed by getInstanceListFromGroup: id, type,
lifecycle state name, private DNS name and private IP address (the two
address fields are pointers in the SDK and may be absent), and tags. -/
structure Instance where
  instanceId : String
  instanceType : String
  stateName : String
  privateDnsName : Option String
  privateIpAddress : Option String
  tags : List Tag
deriving DecidableEq, Repr

/-- One EC2 reservation: a listing of instances (Go: ec2.Reservation). -/
structure Reservation where
  instances : List Instance
deriving DecidableEq, Repr

/-- Go struct internalInstance from src/main.go. -/
structure internalInstance where
  internalDNS : String
  internalIP : String
  instanceType : String
  instanceID : String
  name : String
deriving DecidableEq, Repr

/-- Go struct templateItem from src/main.go. -/
structure templateItem where
  Name : String
  Host : String
deriving DecidableEq, Repr

/-- Go method (i *internalInstance) getName from src/main.go: the name
field when non-empty, otherwise instanceType concatenated with
instanceID. -/
def internalInstance.getName (i : internalInstance) : String :=
  if i.name ≠ "" then i.name else i.instanceType ++ i.instanceID

/-- Go method (i *internalInstance) getEndpoint from src/main.go: returns
the internal IP. -/
def internalInstance.getEndpoint (i : internalInstance) : String :=
  i.internalIP

/-- SDK constant ec2.InstanceStateNameRunning. -/
def InstanceStateNameRunning : String := "running"

/-- SDK constant ec2.InstanceStateNamePending. -/
def InstanceStateNamePending : String := "pending"

/-- The tag-scan loop of getInstanceListFromGroup, first half: the
instance is relevant when some tag has key group and the requested group
value. -/
def hasGroupTag (groupName : String) (tags : List Tag) : Bool :=
  tags.any fun t => t.key == "group" && t.value == groupName

/-- The tag-scan loop of getInstanceListFromGroup, second half: the name
field of the built internalInstance is the value of the last tag with key
Name (the loop overwrites on every match), or the zero value "" when no
such tag exists. -/
def lastNameTag (tags : List Tag) : String :=
  tags.foldl (fun acc t => if t.key == "Name" then t.value else acc) ""

/-- The lifecycle-state condition of getInstanceListFromGroup: state name
equals running or pending. -/
def stateOk (i : Instance) : Bool :=
  i.stateName == InstanceStateNameRunning ||
    i.stateName == InstanceStateNamePending

/-- Both inclusion conditions of getInstanceListFromGroup together. -/
def eligible (groupName : String) (i : Instance) : Bool :=
  hasGroupTag groupName i.tags && stateOk i

/-- The internalInstance built for an included instance, assuming both
address pointers are present (getD supplies a dummy for the absent case,
which the filter itself never takes: it panics instead). -/
def toInternal (i : Instance) : internalInstance :=
  { internalDNS := i.privateDnsName.getD ""
    internalIP := i.privateIpAddress.getD ""
    instanceType := i.instanceType
    instanceID := i.instanceId
    name := lastNameTag i.tags }

/-- The inner loop of getInstanceListFromGroup over the instances of one
reservation, in listing order. For each instance it scans the tags; an
instance with a matching group tag and a running or pending state has its
PrivateDnsName and PrivateIpAddress dereferenced (none models the Go
nil-pointer panic, which aborts the whole pass) and is appended. -/
def processInstances (groupName : String) : List Instance → Option (List internalInstance)
  | [] => some []
  | i :: rest =>
    if eligible groupName i then
      match i.privateDnsName, i.privateIpAddress with
      | some _, some _ =>
        (processInstances groupName rest).map fun tail => toInternal i :: tail
      | _, _ => none
    else
      processInstances groupName rest

/-- The outer loop of getInstanceListFromGroup over reservations, in
listing order. -/
def processReservations (groupName : String) : List Reservation → Option (List internalInstance)
  | [] => some []
  | r :: rest => do
    let xs ← processInstances groupName r.instances
    let ys ← processReservations groupName rest
    pure (xs ++ ys)

/-- Go function getInstanceListFromGroup from src/main.go. The
DescribeInstances response (or its error) is the oracle argument; on
error the error is returned verbatim, otherwise the reservations are
scanned. The outer none models a nil-pointer panic on a missing address
field of an included instance. -/
def getInstanceListFromGroup
    (describeResult : Except String (List Reservation)) (groupName : String) :
    Option (Except String (List internalInstance)) :=
  match describeResult with
  | .error e => some (.error e)
  | .ok rs => (processReservations groupName rs).map Except.ok

/-- Go function getEC2Config from src/main.go: on filter error, return
the error; otherwise map every internalInstance to a templateItem with
Name := getName and Host := getEndpoint, preserving order. -/
def getEC2Config
    (describeResult : Except String (List Reservation)) (groupName : String) :
    Option (Except String (List templateItem)) :=
  match getInstanceListFromGroup describeResult groupName with
  | none => none
  | some (.error e) => some (.error e)
  | some (.ok insts) =>
    some (.ok (insts.map fun i => { Name := i.getName, Host := i.getEndpoint }))

/-- A JSON value, for modelling the body of a queue message. A message
whose body is not syntactically valid JSON is modelled as none at the
call sites (Option Json). -/
inductive Json where
  | null
  | bool (b : Bool)
  | num (n : Int)
  | str (s : String)
  | arr (elems : List Json)
  | obj (fields : List (String × Json))

/-- Go struct snsMsg from src/main.go. The field named Type in Go is
msgType here (Type is reserved in Lean); Timestamp is kept as the raw
string, see decodeSnsMsg. -/
structure snsMsg where
  msgType : String
  MessageID : String
  TopicArn : String
  Timestamp : String
  Subject : String
  Message : String
deriving DecidableEq, Repr

/-- The zero value of snsMsg (Go: snsMsg with all fields empty). -/
def emptySnsMsg : snsMsg :=
  { msgType := "", MessageID := "", TopicArn := "", Timestamp := "",
    Subject := "", Message := "" }

/-- One step of json.Unmarshal into snsMsg: assign one JSON object field
to the struct. Field names match case-insensitively, as in Go. A string
field accepts a JSON string; JSON null leaves the field unchanged; any
other JSON value is a type error. Unknown fields are ignored. Missing
fields are simply never assigned, so they keep their zero value — in
particular a body without Type unmarshals without error. The Timestamp
field is a time.Time in Go and would additionally reject strings that do
not parse as RFC3339 timestamps; that refinement is not modelled, since
no claim depends on it and it only makes Go reject more bodies. -/
def setSnsField (m : snsMsg) (k : String) (v : Json) : Except String snsMsg :=
  let kl := k.toLower
  if kl == "type" then
    match v with
    | .str s => .ok { m with msgType := s }
    | .null => .ok m
    | _ => .error "json: cannot unmarshal value into Go struct field snsMsg.Type of type string"
  else if kl == "messageid" then
    match v with
    | .str s => .ok { m with MessageID := s }
    | .null => .ok m
    | _ => .error "json: cannot unmarshal value into Go struct field snsMsg.MessageID of type string"
  else if kl == "topicarn" then
    match v with
    | .str s => .ok { m with TopicArn := s }
    | .null => .ok m
    | _ => .error "json: cannot unmarshal value into Go struct field snsMsg.TopicArn of type string"
  else if kl == "timestamp" then
    match v with
    | .str s => .ok { m with Timestamp := s }
    | .null => .ok m
    | _ => .error "json: cannot unmarshal value into Go struct field snsMsg.Timestamp of type time.Time"
  else if kl == "subject" then
    match v with
    | .str s => .ok { m with Subject := s }
    | .null => .ok m
    | _ => .error "json: cannot unmarshal value into Go struct field snsMsg.Subject of type string"
  else if kl == "message" then
    match v with
    | .str s => .ok { m with Message := s }
    | .null => .ok m
    | _ => .error "json: cannot unmarshal value into Go struct field snsMsg.Message of type string"
  else
    .ok m

/-- json.Unmarshal of a parsed JSON value into &snsMsg (through the
pointer-to-pointer the Go code passes): a JSON object assigns its fields
over the zero value; JSON null succeeds (it sets the pointer to nil);
any other top-level value is a type error. -/
def decodeSnsMsg : Json → Except String snsMsg
  | .null => .ok emptySnsMsg
  | .obj fields => fields.foldlM (fun m kv => setSnsField m kv.1 kv.2) emptySnsMsg
  | _ => .error "json: cannot unmarshal value into Go value of type *main.snsMsg"

/-- Go function validateMsg from src/main.go: true exactly when
json.Unmarshal of the message body reports no error. The argument is the
message body: none when the body is not syntactically valid JSON, some j
when it parses to the JSON value j. -/
def validateMsg (body : Option Json) : Bool :=
  match body with
  | none => false
  | some j =>
    match decodeSnsMsg j with
    | .error _ => false
    | .ok _ => true

/-- Modelled from the spec: the template asset haproxy.cfg.template is
not under src/. Per the spec it is a parameterized text template with one
repeating unit taking Name and Host fields, and everything besides that
substitution is static text. A block piece is literal text or a
substitution of one of the two fields. -/
inductive BlockPiece where
  | lit (s : String)
  | nameField
  | hostField

/-- Modelled from the spec: the fixed template — static text around one
repeating unit. -/
structure HaproxyTemplate where
  header : String
  block : List BlockPiece
  footer : String

/-- Render one repeating unit of the template for one item. -/
def renderBlock (block : List BlockPiece) (it : templateItem) : String :=
  block.foldl
    (fun acc p =>
      acc ++ match p with
        | .lit s => s
        | .nameField => it.Name
        | .hostField => it.Host)
    ""

/-- Render the whole template for a list of items: header, one block per
item in list order, footer. A pure function of the template and the item
list — the embedding of template.Execute writing to a sink. -/
def renderTemplate (t : HaproxyTemplate) (data : List templateItem) : String :=
  t.header ++ (data.foldl (fun acc it => acc ++ renderBlock t.block it) "") ++ t.footer

/-- Filesystem oracle for one call of writeHaproxyConfig: whether
os.Create fails, and whether (and after how many bytes of output)
template execution fails. Template execution in Go writes to the file as
it runs, so a failure after k bytes leaves the first k bytes of the
render in the file. -/
structure FsWorld where
  createFails : Bool
  execFailsAt : Option Nat
deriving DecidableEq, Repr

/-- Go function writeHaproxyConfig from src/main.go, as a state
transformer on the destination file. The file state is Option String
(none: the file does not exist). os.Create truncates the destination to
empty (or creates it); on create failure the previous state is kept and
an error returned. Template execution then appends the render; on
execution failure after k bytes the file holds the prefix of the render
of length k and an error is returned. Result: new file state, and true
when an error was returned. -/
def writeHaproxyConfig (w : FsWorld) (t : HaproxyTemplate)
    (prev : Option String) (templateData : List templateItem) :
    Option String × Bool :=
  if w.createFails then
    (prev, true)
  else
    match w.execFailsAt with
    | some k => (some ((renderTemplate t templateData).take k), true)
    | none => (some (renderTemplate t templateData), false)

/-- Go function reloadHaproxy from src/main.go: runs the reload script
and logs. The oracle argument is the outcome of CombinedOutput: error
(spawn failure or non-zero exit) or the combined output. The function
returns only its log lines — its Go signature has no error result, so a
reload failure cannot propagate to the caller. -/
def reloadHaproxy (pathToScript : String) (outcome : Except String String) :
    List String :=
  match outcome with
  | .error e => ["executing: " ++ pathToScript, "error when running: " ++ e]
  | .ok output =>
    ["executing: " ++ pathToScript,
     "output of command " ++ pathToScript ++ ": " ++ output]

/-- The effect oracles consumed by one reconciliation pass. -/
structure HandleWorld where
  describeResult : Except String (List Reservation)
  fs : FsWorld
  reloadOutcome : Except String String
deriving Repr

/-- Which pipeline stages one call of handleMessage invoked. -/
structure Trace where
  ranGetEC2 : Bool
  ranWrite : Bool
  ranReload : Bool
deriving DecidableEq, Repr

/-- The outcome of one call of handleMessage: the stages invoked, the
destination file afterwards, and the log lines of the reload invocation
(empty when the reload was not reached). -/
structure HandleResult where
  trace : Trace
  file : Option String
  reloadLogs : List String
deriving DecidableEq, Repr

/-- Go function handleMessage from src/main.go: validate the message
body; on failure return with no further effect. Then getEC2Config; on
error return. Then writeHaproxyConfig; on error return (without
reloading). Then reloadHaproxy. The outer none models a panic inside
getInstanceListFromGroup (missing address field), which crashes the
process. -/
def handleMessage (w : HandleWorld) (body : Option Json)
    (groupName : String) (reloadScript : String)
    (t : HaproxyTemplate) (prev : Option String) :
    Option HandleResult :=
  if !validateMsg body then
    some { trace := { ranGetEC2 := false, ranWrite := false, ranReload := false }
           file := prev, reloadLogs := [] }
  else
    match getEC2Config w.describeResult groupName with
    | none => none
    | some (.error _) =>
      some { trace := { ranGetEC2 := true, ranWrite := false, ranReload := false }
             file := prev, reloadLogs := [] }
    | some (.ok templateData) =>
      match writeHaproxyConfig w.fs t prev templateData with
      | (f, true) =>
        some { trace := { ranGetEC2 := true, ranWrite := true, ranReload := false }
               file := f, reloadLogs := [] }
      | (f, false) =>
        some { trace := { ranGetEC2 := true, ranWrite := true, ranReload := true }
               file := f
               reloadLogs := reloadHaproxy reloadScript w.reloadOutcome }

/-- One received queue message, with the oracles its pass consumes: the
parsed body (none: not valid JSON) and the effect outcomes. -/
structure BatchItem where
  world : HandleWorld
  body : Option Json

/-- What the loop body did for one message: the pass outcome and whether
DeleteMessage was attempted. -/
structure LoopStep where
  result : HandleResult
  deleteAttempted : Bool

/-- The inner consume loop of main from src/main.go over one received
batch (resp.Messages): for each message, run handleMessage synchronously,
then call DeleteMessage — unconditionally, with its error ignored. The
file state threads from pass to pass. The outer none models a panic in a
pass, which kills the daemon (so later messages are not processed and the
delete of the panicking message is not reached). -/
def mainLoopBatch (groupName : String) (reloadScript : String)
    (t : HaproxyTemplate) :
    List BatchItem → Option String → Option (List LoopStep × Option String)
  | [], prev => some ([], prev)
  | it :: rest, prev =>
    match handleMessage it.world it.body groupName reloadScript t prev with
    | none => none
    | some hr =>
      match mainLoopBatch groupName reloadScript t rest hr.file with
      | none => none
      | some (steps, final) =>
        some ({ result := hr, deleteAttempted := true } :: steps, final)

/-- All instances of a snapshot in its native traversal order:
reservations in listing order, instances within each reservation in
listing order — the order of the two nested loops of
getInstanceListFromGroup. -/
def allInstances : List Reservation → List Instance
  | [] => []
  | r :: rest => r.instances ++ allInstances rest

/-- The proposition that a filter pass returned an error value to its
caller (as opposed to succeeding or panicking). -/
def returnsError (r : Option (Except String (List internalInstance))) : Prop :=
  ∃ e, r = some (Except.error e)

/-- Sample instance: group web, running, addresses present. -/
def iWebRun : Instance :=
  ⟨"i-1", "t2.micro", "running", some "dns1", some "10.0.0.1", [⟨"group", "web"⟩]⟩

/-- Sample instance: group web, stopped. -/
def iWebStop : Instance :=
  ⟨"i-2", "t2.micro", "stopped", some "dns2", some "10.0.0.2", [⟨"group", "web"⟩]⟩

/-- Sample instance: group db, running. -/
def iDbRun : Instance :=
  ⟨"i-3", "t2.micro", "running", some "dns3", some "10.0.0.3", [⟨"group", "db"⟩]⟩

/-- Sample instance: group web, pending, addresses present. -/
def iWebPend : Instance :=
  ⟨"i-4", "c5.large", "pending", some "dns4", some "10.0.0.4", [⟨"group", "web"⟩, ⟨"Name", "foo"⟩]⟩

/-- Sample instance: group web, running, no private IP address. -/
def iNoAddr : Instance :=
  ⟨"i-9", "m5.large", "running", some "dns9", none, [⟨"group", "web"⟩]⟩

/-- Sample template: header, one block substituting Name and Host,
footer. -/
def tmplEx : HaproxyTemplate :=
  ⟨"H:", [.lit "name=", .nameField, .lit " host=", .hostField, .lit ";"], ":F"⟩

/-- Sample snapshot with two reservations, for the ordering claim. -/
def rsEx7 : List Reservation := [⟨[iWebRun, iDbRun]⟩, ⟨[iWebStop, iWebPend]⟩]

/-- A filter pass over a list of instances that returns (does not panic)
returns exactly the order-preserving filter of the list by eligibility,
each survivor converted by toInternal. -/
theorem processInstances_eq (g : String) (is : List Instance) :
    ∀ l, processInstances g is = some l →
      l = (is.filter (eligible g)).map toInternal := by
  induction is with
  | nil =>
    intro l h
    simp only [processInstances, Option.some.injEq] at h
    simp [← h]
  | cons i rest ih =>
    intro l h
    by_cases he : eligible g i = true
    · rw [processInstances, if_pos he] at h
      cases hd : i.privateDnsName with
      | none => rw [hd] at h; cases hp : i.privateIpAddress <;> rw [hp] at h <;> simp at h
      | some d =>
        rw [hd] at h
        cases hp : i.privateIpAddress with
        | none => rw [hp] at h; simp at h
        | some p =>
          rw [hp] at h
          cases ht : processInstances g rest with
          | none => rw [ht] at h; simp at h
          | some tail =>
            rw [ht] at h
            rw [show Option.map (fun tail => toInternal i :: tail) (some tail) =
              some (toInternal i :: tail) from rfl] at h
            injection h with h
            rw [← h, ih tail ht]
            simp [List.filter_cons, he]
    · rw [processInstances, if_neg he] at h
      rw [ih l h]
      simp [List.filter_cons, he]

/-- Outer-loop version of processInstances_eq: a whole-snapshot pass that
returns is the order-preserving filter of the flattened traversal. -/
theorem processReservations_eq (g : String) (rs : List Reservation) :
    ∀ l, processReservations g rs = some l →
      l = ((allInstances rs).filter (eligible g)).map toInternal := by
  induction rs with
  | nil =>
    intro l h
    simp only [processReservations, Option.some.injEq] at h
    simp [← h, allInstances]
  | cons r rest ih =>
    intro l h
    simp only [processReservations, bind, Option.bind] at h
    cases hx : processInstances g r.instances with
    | none => rw [hx] at h; simp at h
    | some xs =>
      rw [hx] at h
      cases hy : processReservations g rest with
      | none => rw [hy] at h; simp at h
      | some ys =>
        rw [hy] at h
        have h' : some (xs ++ ys) = some l := h
        injection h' with h'
        rw [← h', processInstances_eq g r.instances xs hx, ih ys hy]
        simp [allInstances, List.filter_append]

/-- When every eligible instance carries both address fields, the inner
loop does not panic and returns the order-preserving filter. -/
theorem processInstances_some (g : String) (is : List Instance)
    (h : ∀ i ∈ is, eligible g i = true →
      i.privateDnsName.isSome ∧ i.privateIpAddress.isSome) :
    processInstances g is = some ((is.filter (eligible g)).map toInternal) := by
  induction is with
  | nil => rfl
  | cons i rest ih =>
    have hrest : ∀ j ∈ rest, eligible g j = true →
        j.privateDnsName.isSome ∧ j.privateIpAddress.isSome :=
      fun j hj => h j (List.mem_cons_of_mem _ hj)
    by_cases he : eligible g i = true
    · obtain ⟨hd, hp⟩ := h i (List.mem_cons_self _ _) he
      obtain ⟨d, hd'⟩ := Option.isSome_iff_exists.mp hd
      obtain ⟨p, hp'⟩ := Option.isSome_iff_exists.mp hp
      rw [processInstances, if_pos he, hd', hp', ih hrest]
      simp [List.filter_cons, he]
    · rw [processInstances, if_neg he, ih hrest]
      simp [List.filter_cons, he]

/-- When every eligible instance carries both address fields, the whole
pass does not panic and returns the order-preserving filter of the
flattened traversal. -/
theorem processReservations_some (g : String) (rs : List Reservation)
    (h : ∀ i ∈ allInstances rs, eligible g i = true →
      i.privateDnsName.isSome ∧ i.privateIpAddress.isSome) :
    processReservations g rs =
      some (((allInstances rs).filter (eligible g)).map toInternal) := by
  induction rs with
  | nil => rfl
  | cons r rest ih =>
    have h1 : ∀ i ∈ r.instances, eligible g i = true →
        i.privateDnsName.isSome ∧ i.privateIpAddress.isSome :=
      fun i hi => h i (by simp [allInstances, hi])
    have h2 : ∀ i ∈ allInstances rest, eligible g i = true →
        i.privateDnsName.isSome ∧ i.privateIpAddress.isSome :=
      fun i hi => h i (by simp [allInstances, hi])
    rw [processReservations]
    simp only [processInstances_some g r.instances h1, ih h2, bind, Option.bind]
    simp [allInstances, List.filter_append]

/-- If some eligible instance of the list is missing an address field,
the inner loop panics (returns none). -/
theorem processInstances_none (g : String) (is : List Instance)
    (h : ∃ i ∈ is, eligible g i = true ∧
      (i.privateDnsName = none ∨ i.privateIpAddress = none)) :
    processInstances g is = none := by
  induction is with
  | nil => simp at h
  | cons i rest ih =>
    by_cases he : eligible g i = true
    · rw [processInstances, if_pos he]
      cases hd : i.privateDnsName with
      | none => rfl
      | some d =>
        cases hp : i.privateIpAddress with
        | none => rfl
        | some p =>
          have hrest : ∃ j ∈ rest, eligible g j = true ∧
              (j.privateDnsName = none ∨ j.privateIpAddress = none) := by
            rcases h with ⟨j, hj, hje, hja⟩
            rcases List.mem_cons.mp hj with rfl | hj'
            · rcases hja with ha | ha
              · rw [hd] at ha; exact absurd ha (by simp)
              · rw [hp] at ha; exact absurd ha (by simp)
            · exact ⟨j, hj', hje, hja⟩
          rw [ih hrest]
          rfl
    · rw [processInstances, if_neg he]
      apply ih
      rcases h with ⟨j, hj, hje, hja⟩
      rcases List.mem_cons.mp hj with rfl | hj'
      · exact absurd hje he
      · exact ⟨j, hj', hje, hja⟩

/-- If some eligible instance of the snapshot is missing an address
field, the whole pass panics (returns none). -/
theorem processReservations_none (g : String) (rs : List Reservation)
    (h : ∃ i ∈ allInstances rs, eligible g i = true ∧
      (i.privateDnsName = none ∨ i.privateIpAddress = none)) :
    processReservations g rs = none := by
  induction rs with
  | nil => simp [allInstances] at h
  | cons r rest ih =>
    rcases h with ⟨j, hj, hje, hja⟩
    rcases List.mem_append.mp (by simpa [allInstances] using hj) with hj' | hj'
    · rw [processReservations,
        processInstances_none g r.instances ⟨j, hj', hje, hja⟩]
      rfl
    · rw [processReservations, ih ⟨j, hj', hje, hja⟩]
      cases processInstances g r.instances <;> rfl

/-- C1: an instance appears in the Backend Set returned by the inventory
filter (getInstanceListFromGroup, when it returns a list) exactly when
the snapshot contains an instance mapping to it that carries a tag with
key group and the requested group value AND whose lifecycle state is
running or pending; wrong state, or a wrong or absent group tag, each
exclude it. -/
theorem C1_backend_set_membership (g : String) (rs : List Reservation)
    (l : List internalInstance)
    (h : getInstanceListFromGroup (Except.ok rs) g = some (Except.ok l)) :
    ∀ x : internalInstance,
      x ∈ l ↔ ∃ i : Instance, i ∈ allInstances rs ∧
        hasGroupTag g i.tags = true ∧ stateOk i = true ∧ toInternal i = x := by
  have hp : processReservations g rs = some l := by
    simp only [getInstanceListFromGroup] at h
    cases hq : processReservations g rs with
    | none => rw [hq] at h; simp at h
    | some l' =>
      rw [hq] at h
      simp only [Option.map_some', Option.some.injEq, Except.ok.injEq] at h
      rw [h]
  rw [processReservations_eq g rs l hp]
  intro x
  constructor
  · intro hx
    rcases List.mem_map.mp hx with ⟨i, hi, hix⟩
    rcases List.mem_filter.mp hi with ⟨hmem, hel⟩
    rcases Bool.and_eq_true_iff.mp (by simpa [eligible] using hel) with ⟨hg, hs⟩
    exact ⟨i, hmem, hg, hs, hix⟩
  · rintro ⟨i, hmem, hg, hs, hix⟩
    exact List.mem_map.mpr
      ⟨i, List.mem_filter.mpr ⟨hmem, by simp [eligible, hg, hs]⟩, hix⟩

/-- C1 witness: in a snapshot with a running web instance, a stopped web
instance and a running db instance, the filter for group web returns
exactly the running web instance, and the membership equivalence holds
for it. -/
theorem C1_backend_set_membership_witness :
    getInstanceListFromGroup (Except.ok [⟨[iWebRun, iWebStop, iDbRun]⟩]) "web" =
      some (Except.ok [toInternal iWebRun]) ∧
    ((toInternal iWebRun) ∈ [toInternal iWebRun] ↔
      ∃ i : Instance, i ∈ allInstances [⟨[iWebRun, iWebStop, iDbRun]⟩] ∧
        hasGroupTag "web" i.tags = true ∧ stateOk i = true ∧
        toInternal i = toInternal iWebRun) :=
  ⟨rfl, C1_backend_set_membership "web" [⟨[iWebRun, iWebStop, iDbRun]⟩]
    [toInternal iWebRun] rfl (toInternal iWebRun)⟩

/-- C3 counterexample: a snapshot whose only instance is eligible (group
web, running) but has no private IP address. The filter pass does not
return an error value to the caller: it panics (nil-pointer dereference,
modelled as none). -/
theorem C3_counterexample :
    getInstanceListFromGroup (Except.ok [⟨[iNoAddr]⟩]) "web" = none ∧
    ¬ returnsError (getInstanceListFromGroup (Except.ok [⟨[iNoAddr]⟩]) "web") := by
  refine ⟨rfl, ?_⟩
  rintro ⟨e, he⟩
  rw [show getInstanceListFromGroup (Except.ok [⟨[iNoAddr]⟩]) "web" = none
    from rfl] at he
  exact Option.noConfusion he

/-- C3 amended: when the snapshot holds an eligible instance (matching
group tag, running or pending) that is missing a private address field,
the pass neither returns an error nor drops or includes the instance —
it crashes with a nil-pointer panic, modelled as none. -/
theorem C3_missing_address_panics (g : String) (rs : List Reservation)
    (h : ∃ i ∈ allInstances rs, eligible g i = true ∧
      (i.privateDnsName = none ∨ i.privateIpAddress = none)) :
    getInstanceListFromGroup (Except.ok rs) g = none := by
  simp [getInstanceListFromGroup, processReservations_none g rs h]

/-- C3 amended witness: the panic on the concrete one-instance snapshot
whose eligible instance has no private IP. -/
theorem C3_missing_address_panics_witness :
    getInstanceListFromGroup (Except.ok [⟨[iNoAddr]⟩]) "web" = none :=
  C3_missing_address_panics "web" [⟨[iNoAddr]⟩]
    ⟨iNoAddr, by simp [allInstances, iNoAddr], by decide, by decide⟩

/-- C7: when every eligible instance carries its address fields (so no
panic occurs), the Backend Set is exactly the order-preserving filter of
the flattened snapshot traversal — reservations in listing order,
instances within each reservation in listing order, no sorting — and
getEC2Config maps it to template items in the same order. -/
theorem C7_traversal_order (g : String) (rs : List Reservation)
    (h : ∀ i ∈ allInstances rs, eligible g i = true →
      i.privateDnsName.isSome ∧ i.privateIpAddress.isSome) :
    getInstanceListFromGroup (Except.ok rs) g =
      some (Except.ok (((allInstances rs).filter (eligible g)).map toInternal)) ∧
    getEC2Config (Except.ok rs) g =
      some (Except.ok ((((allInstances rs).filter (eligible g)).map toInternal).map
        (fun i => ⟨i.getName, i.getEndpoint⟩))) := by
  have hp := processReservations_some g rs h
  refine ⟨?_, ?_⟩
  · simp [getInstanceListFromGroup, hp]
  · simp [getEC2Config, getInstanceListFromGroup, hp]

/-- C7 witness: on a concrete two-reservation snapshot the filter output
and the template items follow the traversal order. -/
theorem C7_traversal_order_witness :
    getInstanceListFromGroup (Except.ok rsEx7) "web" =
      some (Except.ok (((allInstances rsEx7).filter (eligible "web")).map toInternal)) ∧
    getEC2Config (Except.ok rsEx7) "web" =
      some (Except.ok ((((allInstances rsEx7).filter (eligible "web")).map toInternal).map
        (fun i => ⟨i.getName, i.getEndpoint⟩))) :=
  C7_traversal_order "web" rsEx7 (by decide)

/-- The error flag of writeHaproxyConfig is exactly: creation failed, or
execution failed. -/
theorem writeHaproxyConfig_err (w : FsWorld) (t : HaproxyTemplate)
    (prev : Option String) (d : List templateItem) :
    (writeHaproxyConfig w t prev d).2 = (w.createFails || w.execFailsAt.isSome) := by
  unfold writeHaproxyConfig
  by_cases hc : w.createFails = true
  · simp [hc]
  · cases hx : w.execFailsAt <;> simp [hc, hx]

/-- A write that reports no error leaves the full render in the
destination file. -/
theorem writeHaproxyConfig_ok (w : FsWorld) (t : HaproxyTemplate)
    (prev : Option String) (d : List templateItem)
    (h : (writeHaproxyConfig w t prev d).2 = false) :
    (writeHaproxyConfig w t prev d).1 = some (renderTemplate t d) := by
  unfold writeHaproxyConfig at h ⊢
  by_cases hc : w.createFails = true
  · rw [if_pos hc] at h; exact absurd h (by simp)
  · rw [if_neg hc] at h ⊢
    cases hx : w.execFailsAt with
    | some k => rw [hx] at h; exact absurd h (by simp)
    | none => rfl

/-- C2 counterexample: previous file OLD, creation succeeds, template
execution fails after one byte. writeHaproxyConfig reports the error but
the destination now holds the one-byte prefix H of the render — neither
the previous file nor a fully written new file. -/
theorem C2_publish_counterexample :
    writeHaproxyConfig ⟨false, some 1⟩ tmplEx (some "OLD") [] = (some "H", true) ∧
    (some "H" : Option String) ≠ some "OLD" ∧
    (some "H" : Option String) ≠ some (renderTemplate tmplEx []) :=
  ⟨rfl, by decide, by decide⟩

/-- C2 amended: on a no-error return the destination holds the fully
rendered text; on an error return the destination is either the previous
file untouched (creation failure) or some prefix of the new render
(execution failure after the creation call truncated the file) — so a
failed pass can leave a truncated or partly written file. -/
theorem C2_publish_outcomes (w : FsWorld) (t : HaproxyTemplate)
    (prev : Option String) (data : List templateItem) :
    ((writeHaproxyConfig w t prev data).2 = false →
      (writeHaproxyConfig w t prev data).1 = some (renderTemplate t data)) ∧
    ((writeHaproxyConfig w t prev data).2 = true →
      (writeHaproxyConfig w t prev data).1 = prev ∨
        ∃ k, (writeHaproxyConfig w t prev data).1 =
          some ((renderTemplate t data).take k)) := by
  refine ⟨writeHaproxyConfig_ok w t prev data, ?_⟩
  unfold writeHaproxyConfig
  by_cases hc : w.createFails = true
  · rw [if_pos hc]
    exact fun _ => Or.inl rfl
  · rw [if_neg hc]
    cases hx : w.execFailsAt with
    | none => exact fun h => absurd h (by simp)
    | some k => exact fun _ => Or.inr ⟨k, rfl⟩

/-- C2 amended witness: a successful write publishes the full render. -/
theorem C2_publish_outcomes_witness :
    (writeHaproxyConfig ⟨false, none⟩ tmplEx (some "OLD") []).1 =
      some (renderTemplate tmplEx []) :=
  (C2_publish_outcomes ⟨false, none⟩ tmplEx (some "OLD") []).1 rfl

/-- Effect oracles with an empty inventory and all effects succeeding. -/
def wOk : HandleWorld :=
  ⟨Except.ok [], ⟨false, none⟩, Except.ok "reloaded"⟩

/-- Effect oracles where os.Create fails. -/
def wCreateFail : HandleWorld :=
  ⟨Except.ok [], ⟨true, none⟩, Except.ok "reloaded"⟩

/-- Effect oracles where the reload script fails. -/
def wReloadFail : HandleWorld :=
  ⟨Except.ok [⟨[iWebRun]⟩], ⟨false, none⟩, Except.error "exit status 1"⟩

/-- C4 counterexample: the body of the message is the empty JSON object —
valid JSON with no Type field. json.Unmarshal into snsMsg succeeds (a
missing field keeps its zero value), validateMsg returns true, and the
whole pipeline runs: getEC2Config, writeHaproxyConfig and reloadHaproxy
are all invoked. -/
theorem C4_missing_type_counterexample :
    validateMsg (some (Json.obj [])) = true ∧
    (handleMessage wOk (some (Json.obj [])) "web" "/bin/reload" tmplEx
      (some "OLD")).map HandleResult.trace = some ⟨true, true, true⟩ :=
  ⟨rfl, rfl⟩

/-- C4 amended: a message whose body fails json.Unmarshal — not
syntactically valid JSON, or a JSON value that does not unmarshal into
the snsMsg shape — causes no pipeline side effects: getEC2Config,
writeHaproxyConfig and reloadHaproxy are all not invoked and the
destination file is untouched. A valid JSON object merely missing Type
is, however, accepted. -/
theorem C4_invalid_body_skips (w : HandleWorld) (body : Option Json)
    (g s : String) (t : HaproxyTemplate) (prev : Option String)
    (h : validateMsg body = false) :
    handleMessage w body g s t prev =
      some ⟨⟨false, false, false⟩, prev, []⟩ := by
  unfold handleMessage
  rw [h]
  rfl

/-- C4 amended witness: a syntactically invalid body causes no pipeline
stage to run. -/
theorem C4_invalid_body_skips_witness :
    handleMessage wOk none "web" "/bin/reload" tmplEx (some "OLD") =
      some ⟨⟨false, false, false⟩, some "OLD", []⟩ :=
  C4_invalid_body_skips wOk none "web" "/bin/reload" tmplEx (some "OLD") rfl

/-- C5: within one reconciliation pass, if the publish step
(writeHaproxyConfig) returns an error — creation or execution failure —
then reloadHaproxy is never invoked: the trace records no reload and no
reload log lines exist. -/
theorem C5_no_reload_after_write_error (w : HandleWorld) (body : Option Json)
    (g s : String) (t : HaproxyTemplate) (prev : Option String)
    (r : HandleResult)
    (hr : handleMessage w body g s t prev = some r)
    (hw : (w.fs.createFails || w.fs.execFailsAt.isSome) = true) :
    r.trace.ranReload = false ∧ r.reloadLogs = [] := by
  unfold handleMessage at hr
  cases hv : validateMsg body with
  | false =>
    rw [hv] at hr
    have hr' : some (⟨⟨false, false, false⟩, prev, []⟩ : HandleResult) = some r := hr
    injection hr' with hr'
    rw [← hr']
    exact ⟨rfl, rfl⟩
  | true =>
    rw [hv] at hr
    simp only [Bool.not_true, Bool.false_eq_true, if_false] at hr
    cases hge : getEC2Config w.describeResult g with
    | none => rw [hge] at hr; exact absurd hr (by simp)
    | some res =>
      rw [hge] at hr
      cases res with
      | error e =>
        have hr' : some (⟨⟨true, false, false⟩, prev, []⟩ : HandleResult) = some r := hr
        injection hr' with hr'
        rw [← hr']
        exact ⟨rfl, rfl⟩
      | ok data =>
        have hr2 : (match writeHaproxyConfig w.fs t prev data with
          | (f, true) => some (⟨⟨true, true, false⟩, f, []⟩ : HandleResult)
          | (f, false) =>
            some ⟨⟨true, true, true⟩, f, reloadHaproxy s w.reloadOutcome⟩) =
            some r := hr
        rcases hq : writeHaproxyConfig w.fs t prev data with ⟨f, e⟩
        rw [hq] at hr2
        cases e with
        | true =>
          have hr' : some (⟨⟨true, true, false⟩, f, []⟩ : HandleResult) = some r := hr2
          injection hr' with hr'
          rw [← hr']
          exact ⟨rfl, rfl⟩
        | false =>
          have h2 := writeHaproxyConfig_err w.fs t prev data
          rw [hq, hw] at h2
          exact absurd h2.symm (by simp)

/-- C5 witness: with a failing os.Create, the pass ends after the write
step with no reload. -/
theorem C5_no_reload_after_write_error_witness :
    (⟨⟨true, true, false⟩, some "OLD", []⟩ : HandleResult).trace.ranReload = false ∧
    (⟨⟨true, true, false⟩, some "OLD", []⟩ : HandleResult).reloadLogs = [] :=
  C5_no_reload_after_write_error wCreateFail (some (Json.obj [])) "web"
    "/bin/reload" tmplEx (some "OLD") ⟨⟨true, true, false⟩, some "OLD", []⟩ rfl rfl

/-- C6: whenever the loop body over one received batch completes (no
pass panics), every received event was processed and its DeleteMessage
call was attempted — one step per event, each with the delete attempted,
irrespective of the outcome of the reconciliation (including failed
writes and failed reloads, which only shape the step result). -/
theorem C6_batch_deletes_every_event (g s : String) (t : HaproxyTemplate)
    (items : List BatchItem) (prev : Option String)
    (steps : List LoopStep) (final : Option String)
    (h : mainLoopBatch g s t items prev = some (steps, final)) :
    steps.length = items.length ∧
      steps.all (fun st => st.deleteAttempted) = true := by
  induction items generalizing prev steps final with
  | nil =>
    have h' : some (([] : List LoopStep), prev) = some (steps, final) := h
    injection h' with h'
    injection h' with h1 h2
    rw [← h1]
    exact ⟨rfl, rfl⟩
  | cons it rest ih =>
    simp only [mainLoopBatch] at h
    cases hm : handleMessage it.world it.body g s t prev with
    | none => rw [hm] at h; exact absurd h (by simp)
    | some hr =>
      rw [hm] at h
      have h2 : (match mainLoopBatch g s t rest hr.file with
        | none => none
        | some (steps, final) =>
          some (({ result := hr, deleteAttempted := true } : LoopStep) :: steps,
            final)) = some (steps, final) := h
      cases hb : mainLoopBatch g s t rest hr.file with
      | none => rw [hb] at h2; exact absurd h2 (by simp)
      | some p =>
        rcases p with ⟨steps', final'⟩
        rw [hb] at h2
        have h' : some (({ result := hr, deleteAttempted := true } : LoopStep) :: steps', final') = some (steps, final) := h2
        injection h' with h'
        injection h' with h1 h2'
        obtain ⟨ihl, iha⟩ := ih hr.file steps' final' hb
        rw [← h1]
        refine ⟨by simp [ihl], ?_⟩
        simp [List.all_cons, iha]

/-- A two-event batch whose first event has a failing reload script and
whose second event succeeds end to end. -/
def batchEx : List BatchItem :=
  [⟨wReloadFail, some (Json.obj [])⟩, ⟨wOk, some (Json.obj [])⟩]

/-- The run of the loop body on batchEx. -/
def C6run : Option (List LoopStep × Option String) :=
  mainLoopBatch "web" "/bin/reload" tmplEx batchEx (some "OLD")

/-- The steps of the run on batchEx. -/
def stepsEx : List LoopStep := (C6run.map Prod.fst).getD []

/-- The final file state of the run on batchEx. -/
def finalEx : Option String := (C6run.map Prod.snd).getD none

/-- C6 witness: on the concrete batch whose first reload fails, both
events are still processed and both deletes attempted. -/
theorem C6_batch_deletes_every_event_witness :
    stepsEx.length = batchEx.length ∧
      stepsEx.all (fun st => st.deleteAttempted) = true :=
  C6_batch_deletes_every_event "web" "/bin/reload" tmplEx batchEx (some "OLD")
    stepsEx finalEx rfl

/-- C8: rendering is deterministic — two successful publish runs over
equal Backend Sets with the same fixed template write byte-identical
text, whatever the previous file states and effect worlds were; the
written text is the pure render of the template at the Backend Set. -/
theorem C8_render_deterministic (w1 w2 : FsWorld) (t : HaproxyTemplate)
    (prev1 prev2 : Option String) (data : List templateItem)
    (h1 : (writeHaproxyConfig w1 t prev1 data).2 = false)
    (h2 : (writeHaproxyConfig w2 t prev2 data).2 = false) :
    (writeHaproxyConfig w1 t prev1 data).1 = some (renderTemplate t data) ∧
    (writeHaproxyConfig w1 t prev1 data).1 =
      (writeHaproxyConfig w2 t prev2 data).1 :=
  ⟨writeHaproxyConfig_ok w1 t prev1 data h1,
    (writeHaproxyConfig_ok w1 t prev1 data h1).trans
      (writeHaproxyConfig_ok w2 t prev2 data h2).symm⟩

/-- C8 witness: two successful runs over the same one-item Backend Set
and template, from different previous file states, write the same
bytes. -/
theorem C8_render_deterministic_witness :
    (writeHaproxyConfig ⟨false, none⟩ tmplEx (some "A") [⟨"n", "h"⟩]).1 =
      some (renderTemplate tmplEx [⟨"n", "h"⟩]) ∧
    (writeHaproxyConfig ⟨false, none⟩ tmplEx (some "A") [⟨"n", "h"⟩]).1 =
      (writeHaproxyConfig ⟨false, none⟩ tmplEx none [⟨"n", "h"⟩]).1 :=
  C8_render_deterministic ⟨false, none⟩ ⟨false, none⟩ tmplEx (some "A") none
    [⟨"n", "h"⟩] rfl rfl

/-- C9: the display name of an endpoint is the (last) Name tag value
when that is non-empty, else instanceType concatenated with instanceId;
concretely, no Name tag with type m5.large and id i-123 yields
m5.largei-123, and a Name tag foo yields foo. -/
theorem C9_display_name :
    (∀ i : Instance, (toInternal i).getName =
      if lastNameTag i.tags ≠ "" then lastNameTag i.tags
      else i.instanceType ++ i.instanceId) ∧
    (toInternal ⟨"i-123", "m5.large", "running", some "d", some "p",
      [⟨"group", "web"⟩]⟩).getName = "m5.largei-123" ∧
    (toInternal ⟨"i-123", "m5.large", "running", some "d", some "p",
      [⟨"group", "web"⟩, ⟨"Name", "foo"⟩]⟩).getName = "foo" :=
  ⟨fun _ => rfl, by decide, by decide⟩

/-- Effect oracles whose snapshot holds only a running db instance (no
match for group web) and whose local effects all succeed. -/
def wNoMatch : HandleWorld :=
  ⟨Except.ok [⟨[iDbRun]⟩], ⟨false, none⟩, Except.ok "done"⟩

/-- C10: when a valid trigger arrives and no instance of the snapshot is
eligible, the pass does not fail: getEC2Config returns the empty list
with no error, the configuration file is still written — holding the
render of the template at the empty Backend Set — and the reload script
is still invoked. -/
theorem C10_empty_set_still_publishes (w : HandleWorld) (body : Option Json)
    (g s : String) (t : HaproxyTemplate) (prev : Option String)
    (rs : List Reservation)
    (hv : validateMsg body = true)
    (hd : w.describeResult = Except.ok rs)
    (he : ∀ i ∈ allInstances rs, eligible g i = false)
    (hc : w.fs.createFails = false)
    (hx : w.fs.execFailsAt = none) :
    getEC2Config w.describeResult g = some (Except.ok []) ∧
    handleMessage w body g s t prev =
      some ⟨⟨true, true, true⟩, some (renderTemplate t []),
        reloadHaproxy s w.reloadOutcome⟩ := by
  have hfil : (allInstances rs).filter (eligible g) = [] := by
    rw [List.filter_eq_nil_iff]
    intro a ha
    simp [he a ha]
  have hsome : processReservations g rs = some [] := by
    have hall := processReservations_some g rs
      (fun i hi hei => absurd hei (by simp [he i hi]))
    rw [hfil] at hall
    simpa using hall
  have hge : getEC2Config w.describeResult g = some (Except.ok []) := by
    rw [hd]
    simp [getEC2Config, getInstanceListFromGroup, hsome]
  refine ⟨hge, ?_⟩
  unfold handleMessage
  rw [hv]
  simp only [Bool.not_true, Bool.false_eq_true, if_false]
  rw [hge]
  have hwz : writeHaproxyConfig w.fs t prev [] =
      (some (renderTemplate t []), false) := by
    unfold writeHaproxyConfig
    rw [hc, hx]
    rfl
  show (match writeHaproxyConfig w.fs t prev ([] : List templateItem) with
    | (f, true) => some (⟨⟨true, true, false⟩, f, []⟩ : HandleResult)
    | (f, false) =>
      some ⟨⟨true, true, true⟩, f, reloadHaproxy s w.reloadOutcome⟩) =
    some ⟨⟨true, true, true⟩, some (renderTemplate t []),
      reloadHaproxy s w.reloadOutcome⟩
  rw [hwz]

/-- C10 witness: a snapshot holding only a running db instance, filtered
for group web, still writes the zero-block render and reloads. -/
theorem C10_empty_set_still_publishes_witness :
    getEC2Config wNoMatch.describeResult "web" = some (Except.ok []) ∧
    handleMessage wNoMatch (some (Json.obj [])) "web" "/bin/reload" tmplEx
      (some "OLD") =
      some ⟨⟨true, true, true⟩, some (renderTemplate tmplEx []),
        reloadHaproxy "/bin/reload" wNoMatch.reloadOutcome⟩ :=
  C10_empty_set_still_publishes wNoMatch (some (Json.obj [])) "web"
    "/bin/reload" tmplEx (some "OLD") [⟨[iDbRun]⟩] rfl rfl (by decide) rfl rfl
